import Mathlib

/-!
# GeoSpot (geospot-react) — verification of the specified behaviours

A shallow embedding of the repository's code, together with theorems about
the behaviours its specification describes.  The frontend source
(`src/pages/Upload.js`, `src/services/geospot-api.js`,
`src/utils/interactiveComponents.js`, `src/pages/DatasetDetail.js`) is
embedded directly; JavaScript strings are modelled as `List Char`, JSON
values by an inductive `Json`, and React component state by explicit state
records.  The backend ingestion pipeline and dataset store are not part of
this repository's sources and are modelled from the specification where a
claim needs them (each such definition says so in its doc comment).
-/

namespace GeoSpot

/-! ## JSON values

Parsed JSON bodies, feature properties and the like.  Numbers are modelled
as integers (the claims under study never depend on fractional or
non-finite numeric behaviour). -/

inductive Json where
  | null : Json
  | bool (b : Bool) : Json
  | num (n : Int) : Json
  | str (s : String) : Json
  | arr (elems : List Json) : Json
  | obj (fields : List (String × Json)) : Json

/-- JavaScript truthiness of a JSON value (`undefined` is modelled by
`Option.none` at use sites). -/
def jsTruthy : Json → Bool
  | .null => false
  | .bool b => b
  | .num n => decide (n ≠ 0)
  | .str s => decide (s ≠ "")
  | .arr _ => true
  | .obj _ => true

/-- Coercion `String(v)` for the JSON values that can reach `new Error(v)`
in the embedded code. -/
def jsToString : Json → String
  | .null => "null"
  | .bool b => cond b "true" "false"
  | .num n => toString n
  | .str s => s
  | .arr _ => "array"
  | .obj _ => "[object Object]"

/-- Property access `data.field` on a parsed JSON value: `some v` when the
value is an object with that field, `none` (JavaScript `undefined`)
otherwise. -/
def jsGetField : Json → String → Option Json
  | .obj fields, key => fields.lookup key
  | _, _ => none

/-- JavaScript `a || b` applied to a possibly-absent value `a`: the value
when it is present and truthy, the fallback otherwise. -/
def jsOr (a : Option Json) (fallback : Json) : Json :=
  match a with
  | some v => if jsTruthy v then v else fallback
  | none => fallback

/-! ## JavaScript string helpers

Filenames are modelled as `List Char`.  `splitOnChar` embeds
`str.split('.')` (single-character separator), `jsToLower` embeds
`str.toLowerCase()`. -/

/-- Embedding of JavaScript `str.split(sep)` for a one-character separator:
always returns a non-empty list of (possibly empty) segments. -/
def splitOnChar (c : Char) (s : List Char) : List (List Char) :=
  match s with
  | [] => [[]]
  | x :: xs =>
    match splitOnChar c xs with
    | [] => [[]]
    | h :: t => if x = c then [] :: h :: t else (x :: h) :: t

/-- Embedding of JavaScript `str.toLowerCase()` (ASCII case mapping). -/
def jsToLower (s : List Char) : List Char := s.map Char.toLower

/-- The characters after the last `'.'` of the list — the whole list when
no `'.'` occurs.  This is what `str.split('.').pop()` computes; the
equality is proved below (`splitOnChar_getLastD`). -/
def afterLastDot : List Char → List Char
  | [] => []
  | x :: xs =>
    if '.' ∈ xs then afterLastDot xs
    else if x = '.' then xs else x :: xs

/-! ## Upload page (`src/pages/Upload.js`)

State of the `Upload` component (`useState` hooks, lines 7–11) and the
`handleFileChange` handler (lines 14–36). -/

/-- A file selected in the file input: its `name` and byte `size`. -/
structure JsFile where
  name : List Char
  size : Nat
deriving DecidableEq

/-- The `Upload` component's state hooks: `file`, `uploading`,
`uploadProgress`, `uploadResult`, `error`. -/
structure UploadState where
  file : Option JsFile
  uploading : Bool
  uploadProgress : Nat
  uploadResult : Option Json
  error : Option String

/-- Initial state of the `Upload` component. -/
def initialUploadState : UploadState :=
  { file := none, uploading := false, uploadProgress := 0,
    uploadResult := none, error := none }

/-- The list `allowedExtensions = ['.geojson', '.json']` (Upload.js line 18). -/
def allowedExtensions : List (List Char) := [".geojson".data, ".json".data]

/-- The ceiling `maxSize = 10 * 1024 * 1024` (Upload.js line 27). -/
def maxSize : Nat := 10 * 1024 * 1024

/-- The extension the handler computes:
`'.' + selectedFile.name.split('.').pop().toLowerCase()` (line 19). -/
def computedExtension (name : List Char) : List Char :=
  '.' :: jsToLower ((splitOnChar '.' name).getLastD [])

/-- Error message for a rejected file type (line 22):
`Invalid file type. Allowed: ${allowedExtensions.join(', ')}`. -/
def invalidTypeMsg : String := "Invalid file type. Allowed: .geojson, .json"

/-- Error message for an oversized file (line 29). -/
def tooLargeMsg : String := "File too large. Maximum size: 10MB"

/-- Embedding of `handleFileChange` (Upload.js lines 14–36): the state
update performed for a change event whose `files[0]` is `selected`. -/
def handleFileChange (st : UploadState) (selected : Option JsFile) : UploadState :=
  match selected with
  | none => st
  | some f =>
    if ¬ allowedExtensions.contains (computedExtension f.name) then
      { st with error := some invalidTypeMsg }
    else if f.size > maxSize then
      { st with error := some tooLargeMsg }
    else
      { st with file := some f, error := none }

/-- The file-selection acceptance condition as the claim states it: the
filename ends in a recognized extension (`.geojson` or `.json`), compared
case-insensitively. -/
def endsInRecognizedExtension (name : List Char) : Bool :=
  allowedExtensions.any (fun ext => ext.isSuffixOf (jsToLower name))

/-- The acceptance condition the code actually enforces, in the amended
claim's words: the filename ends case-insensitively in `.geojson` or
`.json`, or contains no dot and lowercases to exactly `geojson` or
`json`. -/
def specNameAccepted (name : List Char) : Bool :=
  endsInRecognizedExtension name ||
  (decide ('.' ∉ name) &&
    (jsToLower name == "geojson".data || jsToLower name == "json".data))

/-! ## API service (`src/services/geospot-api.js`)

The service's response handling is embedded over an `HttpResponse`: the
HTTP status, the `ok` flag, and the parsed JSON body (`response.json()`,
which the source awaits before inspecting `ok`). -/

/-- An HTTP response as seen by the service after `response.json()`
succeeded: the `ok` flag, the numeric status, and the parsed body. -/
structure HttpResponse where
  ok : Bool
  status : Nat
  body : Json

/-- URL construction of `request` (geospot-api.js line 9):
`` `${this.baseURL}${endpoint}` ``. -/
def requestUrl (baseURL endpoint : String) : String := baseURL ++ endpoint

/-- Embedding of the response handling of `request` (geospot-api.js lines
20–31): on a non-ok response it throws
`new Error(data.detail || "API error: " + status)`, otherwise it returns
the parsed body. -/
def request (resp : HttpResponse) : Except String Json :=
  if resp.ok then
    .ok resp.body
  else
    .error (jsToString (jsOr (jsGetField resp.body "detail")
      (.str ("API error: " ++ toString resp.status))))

/-- The multipart request `uploadGeoJSON` issues (geospot-api.js lines
50–58): `POST` to `` `${this.baseURL}/api/v1/upload` `` with a `FormData`
body holding the file under the field name `file`. -/
structure UploadRequest where
  url : String
  method : String
  formFields : List (String × JsFile)

/-- Embedding of the request construction of `uploadGeoJSON`
(geospot-api.js lines 51–58). -/
def buildUploadRequest (baseURL : String) (file : JsFile) : UploadRequest :=
  { url := baseURL ++ "/api/v1/upload", method := "POST",
    formFields := [("file", file)] }

/-- Embedding of the response handling of `uploadGeoJSON` (geospot-api.js
lines 60–66): on a non-ok response it throws
`new Error(data.detail || "Upload error: " + status)`, otherwise it
returns the parsed body. -/
def uploadHandleResponse (resp : HttpResponse) : Except String Json :=
  if ¬ resp.ok then
    .error (jsToString (jsOr (jsGetField resp.body "detail")
      (.str ("Upload error: " ++ toString resp.status))))
  else
    .ok resp.body

/-- The endpoint string `getDatasets` builds (geospot-api.js line 71):
`` `/api/v1/datasets?skip=${skip}&limit=${limit}` ``.  `skip`/`limit` are
JavaScript numbers; the claims exercise integral values, modelled by
`Int`. -/
def getDatasetsEndpoint (skip limit : Int) : String :=
  "/api/v1/datasets?skip=" ++ toString skip ++ "&limit=" ++ toString limit

/-- The default arguments of `getDatasets` (geospot-api.js line 70):
`skip = 0`, `limit = 100`. -/
def getDatasetsDefaults : Int × Int := (0, 100)

/-! ## Dataset list page (`DatasetList`, in
`src/utils/interactiveComponents.js`)

The pagination state machine: `currentPage` starts at `0` (line 207) and
is only changed through `handlePageChange` (lines 241–245); every fetch
requests `skip = currentPage * 100` (lines 230, 238, 248). -/

/-- Embedding of `handlePageChange` (interactiveComponents.js lines
241–245) for a reported `total`: the new value of `currentPage` when the
handler is invoked with `newPage`. -/
def handlePageChange (total : Int) (currentPage newPage : Int) : Int :=
  if 0 ≤ newPage ∧ newPage * 100 < total then newPage else currentPage

/-- Value of `currentPage` after a sequence of `handlePageChange` invocations,
starting from the initial value `0`. -/
def runPageChanges (total : Int) (requests : List Int) : Int :=
  requests.foldl (handlePageChange total) 0

/-- The `skip` parameter the dataset list requests from the API:
`currentPage * 100`. -/
def skipOf (currentPage : Int) : Int := currentPage * 100

/-! ## Dataset detail page (`src/unnamed/part_000`, `DatasetDetail`)

The Feature Properties section (lines 258–277): when the loaded
FeatureCollection has at least one feature it renders a card per element
of `features.slice(0, 5)` and, when `features.length > 5`, a note
`... and {features.length - 5} more features`; otherwise it renders no
cards and no note. -/

/-- A feature of the loaded GeoJSON document as the detail page consumes
it: its `geometry` and `properties` are arbitrary JSON values. -/
structure JsFeature where
  geometry : Json
  properties : Json

/-- Embedding of the Feature Properties section's render (part_000 lines
258–277): the list of features rendered as cards, and `some k` when the
`... and k more features` note is shown. -/
def featurePropertiesSection (features : List JsFeature) :
    List JsFeature × Option Nat :=
  if features.length > 0 then
    (features.take 5,
     if features.length > 5 then some (features.length - 5) else none)
  else ([], none)

/-! ## Backend: ingestion pipeline and dataset store

The backend is not part of this repository's sources (only its
documentation and its frontend callers are), so the definitions of this
section are modelled from the specification (§3, §4.1–§4.4, §7); each doc
comment says what it models. -/

/-- Modelled from the spec: a GeoJSON geometry value (§4.1) — a `type`
discriminator with a coordinate payload shaped according to that type;
coordinates are positions (`[x, y]` or `[x, y, z]`), modelled over `Int`.
`GeometryCollection` nests geometries recursively. -/
inductive Geometry where
  | point (coords : List Int) : Geometry
  | lineString (coords : List (List Int)) : Geometry
  | polygon (rings : List (List (List Int))) : Geometry
  | multiPoint (coords : List (List Int)) : Geometry
  | multiLineString (lines : List (List (List Int))) : Geometry
  | multiPolygon (polys : List (List (List (List Int)))) : Geometry
  | geometryCollection (geoms : List Geometry) : Geometry

/-- Modelled from the spec: a position is `[x, y]` or `[x, y, z]` (§4.1);
finiteness of coordinates is inherent in the `Int` model. -/
def validPosition (p : List Int) : Bool :=
  p.length == 2 || p.length == 3

/-- Modelled from the spec: a linear ring is a sequence of ≥ 4 positions
whose first and last position are equal (§4.1). -/
def validRing (r : List (List Int)) : Bool :=
  decide (4 ≤ r.length) && r.all validPosition && decide (r.head? = r.getLast?)

mutual

/-- Modelled from the spec: the Geometry Validator (§4.1) — the coordinate
payload matches the arity expected by the type, rings are closed, and the
members of a `GeometryCollection` are each recursively validated. -/
def validGeometry : Geometry → Bool
  | .point c => validPosition c
  | .lineString cs => cs.all validPosition
  | .polygon rs => rs.all validRing
  | .multiPoint cs => cs.all validPosition
  | .multiLineString ls => ls.all (fun l => l.all validPosition)
  | .multiPolygon ps => ps.all (fun p => p.all validRing)
  | .geometryCollection gs => validGeometryList gs

/-- Recursive validation of the members of a `GeometryCollection`. -/
def validGeometryList : List Geometry → Bool
  | [] => true
  | g :: gs => validGeometry g && validGeometryList gs

end

/-- Modelled from the spec: a validated feature of an uploaded
FeatureCollection — a geometry and a verbatim string-keyed property
mapping (§3, §4.2). -/
structure GeoFeature where
  geometry : Geometry
  properties : List (String × Json)

/-- Modelled from the spec: a decoded FeatureCollection document handed to
validation (§4.2); an empty `features` sequence is valid. -/
structure FeatureCollectionDoc where
  features : List GeoFeature

/-- Modelled from the spec: the FeatureCollection Validator's failure
result — the index of the first offending feature (§4.2); validation
short-circuits, so `none` means every feature's geometry is valid. -/
def firstInvalidIndex (fs : List GeoFeature) : Option Nat :=
  match fs with
  | [] => none
  | f :: rest =>
    if validGeometry f.geometry then
      (firstInvalidIndex rest).map (· + 1)
    else some 0

/-- Modelled from the spec: a `datasets` table row (§3, §6): id, unique
name, description, feature count, optional bounds, original file size,
upload timestamp. -/
structure DatasetRow where
  id : Nat
  name : String
  description : String
  featureCount : Nat
  bounds : Option Geometry
  fileSizeBytes : Nat
  uploadedAt : Nat

/-- Modelled from the spec: a `features` table row (§3, §6): id, owning
dataset id, geometry and properties copied verbatim. -/
structure FeatureRow where
  id : Nat
  datasetId : Nat
  geometry : Geometry
  properties : List (String × Json)

/-- Modelled from the spec: the Dataset Store's persistent state — the two
tables plus the id sequences. -/
structure Store where
  datasets : List DatasetRow
  features : List FeatureRow
  nextDatasetId : Nat
  nextFeatureId : Nat

/-- The empty store. -/
def emptyStore : Store :=
  { datasets := [], features := [], nextDatasetId := 1, nextFeatureId := 1 }

/-- Well-formedness of a store: every row's ids are below the id
sequences, so a freshly allocated dataset id collides with no existing
row. -/
def StoreWF (st : Store) : Bool :=
  st.datasets.all (fun d => d.id < st.nextDatasetId) &&
  st.features.all (fun f => f.datasetId < st.nextDatasetId)

/-- Modelled from the spec: the ingestion error taxonomy (§7). -/
inductive IngestError where
  | unsupportedFileType : IngestError
  | payloadTooLarge : IngestError
  | malformedDocument : IngestError
  | invalidGeoJSON (featureIndex : Nat) : IngestError
  | duplicateName : IngestError
  | storeFailure : IngestError

/-- Modelled from the spec: the successful ingestion result
`IngestSummary{datasetId, name, featureCount, fileSizeBytes, uploadedAt}`
(§4.3). -/
structure IngestSummary where
  datasetId : Nat
  name : String
  featureCount : Nat
  fileSizeBytes : Nat
  uploadedAt : Nat

/-- Modelled from the spec: one upload as the pipeline receives it — the
filename and byte length (§4.3); `parsed` is the outcome of JSON decoding
(`none` = malformed text), `now` the environment's clock, and `storeFails`
models a persistence-layer fault striking during the transactional persist
step. -/
structure UploadInput where
  fileName : String
  fileSize : Nat
  parsed : Option FeatureCollectionDoc
  now : Nat
  storeFails : Bool

/-- Modelled from the spec: the recognized upload extensions (the
repository's upload page lists `.geojson` and `.json`), compared
case-insensitively against the end of the filename (§4.3 step 1). -/
def recognizedName (fileName : String) : Bool :=
  let low := fileName.data.map Char.toLower
  ".geojson".data.isSuffixOf low || ".json".data.isSuffixOf low

/-- Modelled from the spec: the dataset name derived from the filename
(§4.3 step 5; no further normalization is specified). -/
def datasetNameOf (fileName : String) : String := fileName

/-- Modelled from the spec: `createDataset` (§4.4) — insert a dataset row
with `feature_count = 0` and `bounds = null`, returning the fresh id;
runs inside the caller's transaction scope. -/
def createDataset (st : Store) (name description : String)
    (fileSize now : Nat) : Store × Nat :=
  let id := st.nextDatasetId
  ({ st with
      datasets := st.datasets ++
        [{ id := id, name := name, description := description,
           featureCount := 0, bounds := none,
           fileSizeBytes := fileSize, uploadedAt := now }],
      nextDatasetId := id + 1 }, id)

/-- Modelled from the spec: `bulkInsertFeatures` (§4.4) — insert one row
per validated feature, preserving input order, copying geometry and
properties verbatim; returns the inserted count. -/
def bulkInsertFeatures (st : Store) (datasetId : Nat)
    (fs : List GeoFeature) : Store × Nat :=
  let rows := fs.enum.map (fun p =>
    { id := st.nextFeatureId + p.1, datasetId := datasetId,
      geometry := p.2.geometry, properties := p.2.properties : FeatureRow })
  ({ st with features := st.features ++ rows,
             nextFeatureId := st.nextFeatureId + fs.length }, rows.length)

mutual

/-- All positions occurring in a geometry, for the envelope computation. -/
def positionsOf : Geometry → List (List Int)
  | .point c => [c]
  | .lineString cs => cs
  | .polygon rs => rs.flatten
  | .multiPoint cs => cs
  | .multiLineString ls => ls.flatten
  | .multiPolygon ps => (ps.map List.flatten).flatten
  | .geometryCollection gs => positionsOfList gs

/-- All positions occurring in a list of geometries. -/
def positionsOfList : List Geometry → List (List Int)
  | [] => []
  | g :: gs => positionsOf g ++ positionsOfList gs

end

/-- Modelled from the spec: `computeBounds` (§4.4) — the axis-aligned
envelope of the union of the dataset's geometries, `none` when the dataset
owns zero features (§4.3 step 6c, §9). -/
def computeBounds (st : Store) (datasetId : Nat) : Option Geometry :=
  let ps := ((st.features.filter (fun f => f.datasetId == datasetId)).map
    (fun f => positionsOf f.geometry)).flatten
  let xs := ps.filterMap (fun p => p.head?)
  let ys := ps.filterMap (fun p => p.tail?.bind List.head?)
  match xs.min?, xs.max?, ys.min?, ys.max? with
  | some x0, some x1, some y0, some y1 =>
    some (.polygon [[[x0, y0], [x1, y0], [x1, y1], [x0, y1], [x0, y0]]])
  | _, _, _, _ => none

/-- Modelled from the spec: the dataset-row update of §4.3 step 6c —
recompute `feature_count` and `bounds` on the just-inserted dataset. -/
def updateDataset (st : Store) (datasetId count : Nat)
    (bounds : Option Geometry) : Store :=
  { st with datasets := st.datasets.map (fun d =>
      if d.id = datasetId then
        { d with featureCount := count, bounds := bounds }
      else d) }

/-- Modelled from the spec: the store state after the commit of a
successful transactional persist (§4.3 step 6a–6c) — dataset row inserted,
features bulk-inserted, count and bounds recomputed on the dataset row. -/
def persistedStore (st : Store) (name description : String)
    (fileSize now : Nat) (fs : List GeoFeature) : Store :=
  let created := createDataset st name description fileSize now
  let inserted := bulkInsertFeatures created.1 created.2 fs
  updateDataset inserted.1 created.2 inserted.2
    (computeBounds inserted.1 created.2)

/-- Modelled from the spec: the summary returned by a successful persist
(§4.3). -/
def persistSummary (st : Store) (name : String) (fileSize now : Nat)
    (fs : List GeoFeature) : IngestSummary :=
  { datasetId := st.nextDatasetId, name := name,
    featureCount := fs.length,
    fileSizeBytes := fileSize, uploadedAt := now }

/-- Modelled from the spec: the transactional persist step (§4.3 step 6) —
insert the dataset row, bulk-insert the features, recompute count and
bounds, and commit; any persistence-layer fault rolls the whole
transaction back, yielding `StoreFailure` and the original store (§4.3
step 7, §7). -/
def persistTx (st : Store) (name description : String)
    (fileSize now : Nat) (fs : List GeoFeature) (storeFails : Bool) :
    Store × Except IngestError IngestSummary :=
  if storeFails then
    (st, .error .storeFailure)
  else
    (persistedStore st name description fileSize now fs,
     .ok (persistSummary st name fileSize now fs))

/-- Modelled from the spec: the dataset description default of §4.3 step
6a: `Uploaded GeoJSON file with N features`. -/
def defaultDescription (n : Nat) : String :=
  "Uploaded GeoJSON file with " ++ toString n ++ " features"

/-- Modelled from the spec: pipeline steps 5–6 (§4.3) — after validation
succeeded or reported the first invalid index, run the uniqueness check
and the transactional persist. -/
def ingestValidated (st : Store) (inp : UploadInput)
    (doc : FeatureCollectionDoc) :
    Option Nat → Store × Except IngestError IngestSummary
  | some i => (st, .error (.invalidGeoJSON i))
  | none =>
    if st.datasets.any (fun d => d.name == datasetNameOf inp.fileName) then
      (st, .error .duplicateName)
    else
      persistTx st (datasetNameOf inp.fileName)
        (defaultDescription doc.features.length)
        inp.fileSize inp.now doc.features inp.storeFails

/-- Modelled from the spec: pipeline steps 3–6 (§4.3) — dispatch on the
parse outcome, then validate and persist. -/
def ingestParsed (st : Store) (inp : UploadInput) :
    Option FeatureCollectionDoc → Store × Except IngestError IngestSummary
  | none => (st, .error .malformedDocument)
  | some doc => ingestValidated st inp doc (firstInvalidIndex doc.features)

/-- Modelled from the spec: the Ingestion Pipeline `ingest(fileName,
fileBytes)` (§4.3) — extension check, size check, parse, validation,
uniqueness check, transactional persist; every exit returns the resulting
store alongside the result. -/
def ingest (maxBytes : Nat) (st : Store) (inp : UploadInput) :
    Store × Except IngestError IngestSummary :=
  if ¬ recognizedName inp.fileName then
    (st, .error .unsupportedFileType)
  else if inp.fileSize > maxBytes then
    (st, .error .payloadTooLarge)
  else
    ingestParsed st inp inp.parsed

/-- Modelled from the spec: a feature of an exported FeatureCollection —
`type: Feature` with `id`, `geometry`, `properties` reproduced exactly as
stored (§4.4, §6). -/
structure OutFeature where
  id : Nat
  geometry : Geometry
  properties : List (String × Json)

/-- Modelled from the spec: an exported document — `type:
FeatureCollection` with a `features` array (§6). -/
structure FeatureCollectionOut where
  features : List OutFeature

/-- Modelled from the spec: `exportGeoJSON(id)` (§4.4) — `NotFound` for an
unknown dataset, otherwise the dataset's feature rows reconstructed as a
FeatureCollection in stored order. -/
def exportGeoJSON (st : Store) (id : Nat) : Option FeatureCollectionOut :=
  if st.datasets.any (fun d => d.id == id) then
    let outs := (st.features.filter (fun f => f.datasetId == id)).map
      (fun r => { id := r.id, geometry := r.geometry,
                  properties := r.properties : OutFeature })
    some { features := outs }
  else none

/-! ## Theorems -/

/-- Claim C6: `getDatasets(skip, limit)` passes the pagination parameters
through unchanged — the endpoint is `/api/v1/datasets` followed by the
query string `?skip=<skip>&limit=<limit>` exactly, and the defaults when
the caller omits the arguments are `skip = 0`, `limit = 100`. -/
theorem getDatasets_passthrough (skip limit : Int) :
    getDatasetsEndpoint skip limit =
      "/api/v1/datasets" ++
        ("?skip=" ++ toString skip ++ "&limit=" ++ toString limit) ∧
    getDatasetsDefaults = (0, 100) ∧
    getDatasetsEndpoint getDatasetsDefaults.1 getDatasetsDefaults.2 =
      "/api/v1/datasets?skip=0&limit=100" := by
  refine ⟨?_, rfl, rfl⟩
  show "/api/v1/datasets?skip=" ++ toString skip ++ "&limit=" ++ toString limit = _
  have h : ("/api/v1/datasets?skip=" : String) = "/api/v1/datasets" ++ "?skip=" := rfl
  rw [h]
  simp only [String.append_assoc]

/-- Claim C9: for a loaded FeatureCollection with `N` features, the detail
page's Feature Properties section renders exactly `min N 5` feature cards,
and shows the `... and N - 5 more features` note exactly when `N > 5`. -/
theorem featureCards_and_note (features : List JsFeature) :
    (featurePropertiesSection features).1.length = min features.length 5 ∧
    (featurePropertiesSection features).2 =
      (if 5 < features.length then some (features.length - 5) else none) := by
  unfold featurePropertiesSection
  by_cases h : features.length > 0
  · rw [if_pos h]
    constructor
    · show (features.take 5).length = _
      rw [List.length_take]
      omega
    · rfl
  · rw [if_neg h]
    have hz : features.length = 0 := by omega
    constructor
    · show ([] : List JsFeature).length = _
      simp [hz]
    · show (none : Option Nat) = _
      rw [if_neg (by omega)]

/-- Claim C8: `handlePageChange` updates `currentPage` only when the
requested page is ≥ 0 and its offset `page * 100` is strictly below the
reported total; consequently, starting from page 0, after any sequence of
page-change requests `currentPage` is never negative and the requested
skip `currentPage * 100` stays strictly below a known positive total. -/
theorem pagination_invariant (total : Int) (requests : List Int)
    (c n : Int) :
    (¬ (0 ≤ n ∧ n * 100 < total) → handlePageChange total c n = c) ∧
    (0 < total →
      0 ≤ runPageChanges total requests ∧
      skipOf (runPageChanges total requests) < total) := by
  constructor
  · intro h
    unfold handlePageChange
    rw [if_neg h]
  · intro ht
    have key : ∀ (l : List Int) (a : Int), 0 ≤ a → a * 100 < total →
        0 ≤ l.foldl (handlePageChange total) a ∧
        (l.foldl (handlePageChange total) a) * 100 < total := by
      intro l
      induction l with
      | nil => intro a h1 h2; exact ⟨h1, h2⟩
      | cons x xs ih =>
        intro a h1 h2
        rw [List.foldl_cons]
        by_cases hx : 0 ≤ x ∧ x * 100 < total
        · have hstep : handlePageChange total a x = x := by
            unfold handlePageChange; rw [if_pos hx]
          rw [hstep]; exact ih x hx.1 hx.2
        · have hstep : handlePageChange total a x = a := by
            unfold handlePageChange; rw [if_neg hx]
          rw [hstep]; exact ih a h1 h2
    have h0 : (0 : Int) * 100 < total := by omega
    exact key requests 0 le_rfl h0

/-- Witness for the pagination invariant: with `total = 250` and the
request sequence `[1, 5, -3, 2]`, an out-of-range request leaves the page
unchanged and the final page satisfies the invariant. -/
theorem pagination_invariant_witness :
    handlePageChange 250 7 (-1) = 7 ∧
    (0 ≤ runPageChanges 250 [1, 5, -3, 2] ∧
      skipOf (runPageChanges 250 [1, 5, -3, 2]) < 250) :=
  ⟨(pagination_invariant 250 [1, 5, -3, 2] 7 (-1)).1 (by decide),
   (pagination_invariant 250 [1, 5, -3, 2] 7 (-1)).2 (by decide)⟩

/-- Unfolding of `handleFileChange` on a present selection. -/
theorem handleFileChange_some (st : UploadState) (f : JsFile) :
    handleFileChange st (some f) =
      if ¬ allowedExtensions.contains (computedExtension f.name) then
        { st with error := some invalidTypeMsg }
      else if f.size > maxSize then
        { st with error := some tooLargeMsg }
      else
        { st with file := some f, error := none } := rfl

/-- Claim C3: for a selection that passes the name check, the upload page
rejects it with the too-large error exactly when its byte length exceeds
the 10 MiB ceiling (`10 * 1024 * 1024` bytes); a file of exactly 10 MiB is
accepted. -/
theorem sizeCheck_spec (st : UploadState) (f : JsFile)
    (hext : allowedExtensions.contains (computedExtension f.name) = true) :
    (handleFileChange st (some f) = { st with error := some tooLargeMsg } ↔
      maxSize < f.size) ∧
    (f.size = maxSize →
      handleFileChange st (some f) =
        { st with file := some f, error := none }) := by
  rw [handleFileChange_some]
  rw [if_neg (not_not_intro hext)]
  by_cases hs : f.size > maxSize
  · rw [if_pos hs]
    constructor
    · exact iff_of_true rfl hs
    · intro he; exfalso; omega
  · rw [if_neg hs]
    constructor
    · apply iff_of_false
      · intro h
        have herr := congrArg UploadState.error h
        simp at herr
      · exact hs
    · intro _; rfl

/-- Witness for the size check: a well-named file of exactly
`10 * 1024 * 1024` bytes is accepted as the selected file. -/
theorem sizeCheck_witness :
    handleFileChange initialUploadState
        (some { name := "data.geojson".data, size := 10485760 }) =
      { initialUploadState with
          file := some { name := "data.geojson".data, size := 10485760 },
          error := none } :=
  (sizeCheck_spec initialUploadState
    { name := "data.geojson".data, size := 10485760 } (by rfl)).2 (by rfl)

/-- Claim C10: when file-selection validation fails (unrecognized
extension, or size over the ceiling), only the error state is set — the
previously selected file, the uploading flag, the progress and the upload
result are left unchanged; when validation succeeds the file state is set
to the new selection and the error state is cleared, the rest unchanged. -/
theorem fileChange_frame (st : UploadState) (f : JsFile) :
    ((allowedExtensions.contains (computedExtension f.name) = false ∨
        maxSize < f.size) →
      ((handleFileChange st (some f)).file = st.file ∧
       (handleFileChange st (some f)).uploading = st.uploading ∧
       (handleFileChange st (some f)).uploadProgress = st.uploadProgress ∧
       (handleFileChange st (some f)).uploadResult = st.uploadResult ∧
       ∃ m, (handleFileChange st (some f)).error = some m)) ∧
    ((allowedExtensions.contains (computedExtension f.name) = true ∧
        f.size ≤ maxSize) →
      handleFileChange st (some f) =
        { st with file := some f, error := none }) := by
  rw [handleFileChange_some]
  by_cases hext : allowedExtensions.contains (computedExtension f.name) = true
  · rw [if_neg (not_not_intro hext)]
    by_cases hs : f.size > maxSize
    · rw [if_pos hs]
      refine ⟨fun _ => ⟨rfl, rfl, rfl, rfl, tooLargeMsg, rfl⟩, fun hc => ?_⟩
      exfalso
      have := hc.2
      omega
    · rw [if_neg hs]
      constructor
      · intro hb
        rcases hb with hb | hb
        · rw [hext] at hb; exact absurd hb (by decide)
        · exfalso; omega
      · intro _; rfl
  · rw [if_pos hext]
    constructor
    · intro _; exact ⟨rfl, rfl, rfl, rfl, invalidTypeMsg, rfl⟩
    · intro hc; exact absurd hc.1 hext

/-- Witness for the frame behaviour of `handleFileChange`: a `.txt`
selection leaves the selected file untouched, and a well-formed `.JSON`
selection becomes the selected file with the error cleared. -/
theorem fileChange_frame_witness :
    (handleFileChange initialUploadState
        (some { name := "notes.txt".data, size := 3 })).file =
      initialUploadState.file ∧
    handleFileChange initialUploadState
        (some { name := "map.JSON".data, size := 512 }) =
      { initialUploadState with
          file := some { name := "map.JSON".data, size := 512 },
          error := none } :=
  ⟨((fileChange_frame initialUploadState
      { name := "notes.txt".data, size := 3 }).1 (Or.inl (by rfl))).1,
   (fileChange_frame initialUploadState
      { name := "map.JSON".data, size := 512 }).2 ⟨by rfl, by decide⟩⟩

/-- Unfolding of `jsOr` on a present value. -/
theorem jsOr_some (v fb : Json) :
    jsOr (some v) fb = if jsTruthy v then v else fb := rfl

/-- Unfolding of `jsOr` on an absent value. -/
theorem jsOr_none (fb : Json) : jsOr none fb = fb := rfl

/-- Truthiness of a JSON string is non-emptiness. -/
theorem jsTruthy_str (s : String) :
    jsTruthy (Json.str s) = decide (s ≠ "") := rfl

/-- Claim C4, counterexample: a non-ok response whose body carries a
`detail` field that is present but empty does not produce the detail as
the error message — JavaScript `||` falls through on the empty string, so
the message is the `API error: <status>` fallback instead. -/
theorem request_detail_counterexample :
    jsGetField (Json.obj [("detail", Json.str "")]) "detail" =
      some (Json.str "") ∧
    request { ok := false, status := 500,
              body := Json.obj [("detail", Json.str "")] } =
      Except.error "API error: 500" ∧
    "API error: 500" ≠ "" :=
  ⟨rfl, rfl, by decide⟩

/-- Claim C4 (amended): when the response is not ok the call rejects with
an error whose message equals the body's `detail` field when that field is
present as a non-empty string, and equals `API error: <status>` when the
field is absent or empty; when the response is ok the parsed body is
returned unchanged. -/
theorem request_spec (resp : HttpResponse) :
    (resp.ok = true → request resp = Except.ok resp.body) ∧
    (resp.ok = false → ∀ s : String,
      jsGetField resp.body "detail" = some (Json.str s) → s ≠ "" →
      request resp = Except.error s) ∧
    (resp.ok = false →
      jsGetField resp.body "detail" = some (Json.str "") →
      request resp = Except.error ("API error: " ++ toString resp.status)) ∧
    (resp.ok = false → jsGetField resp.body "detail" = none →
      request resp = Except.error ("API error: " ++ toString resp.status)) := by
  refine ⟨fun hok => ?_, fun hko s hd hs => ?_, fun hko hd => ?_, fun hko hd => ?_⟩
  all_goals unfold request
  · rw [if_pos hok]
  · rw [if_neg (by rw [hko]; exact Bool.false_ne_true), hd, jsOr_some,
      if_pos (by rw [jsTruthy_str]; exact decide_eq_true hs)]
    rfl
  · rw [if_neg (by rw [hko]; exact Bool.false_ne_true), hd, jsOr_some,
      if_neg (by rw [jsTruthy_str]; simp)]
    rfl
  · rw [if_neg (by rw [hko]; exact Bool.false_ne_true), hd, jsOr_none]
    rfl

/-- Witness for the request helper: a 404 response with `detail` set to
`"Dataset not found"` rejects with exactly that message, and an ok
response returns its body. -/
theorem request_spec_witness :
    request { ok := false, status := 404, body := Json.obj [("detail", Json.str "Dataset not found")] } = Except.error "Dataset not found" ∧
    request { ok := true, status := 200, body := Json.num 7 } =
      Except.ok (Json.num 7) :=
  ⟨(request_spec { ok := false, status := 404, body := Json.obj [("detail", Json.str "Dataset not found")] }).2.1 rfl "Dataset not found" rfl (by decide),
   (request_spec { ok := true, status := 200, body := Json.num 7 }).1 rfl⟩

/-- Claim C5: `uploadGeoJSON` posts the file to `/api/v1/upload` as
multipart form data under the field name `file`, resolves with the parsed
response body exactly when the response is ok, and otherwise throws an
error carrying the server's `detail` message, falling back to
`Upload error: <status>` when no usable detail is present. -/
theorem uploadGeoJSON_spec (baseURL : String) (file : JsFile)
    (resp : HttpResponse) :
    (buildUploadRequest baseURL file).url = baseURL ++ "/api/v1/upload" ∧
    (buildUploadRequest baseURL file).method = "POST" ∧
    (buildUploadRequest baseURL file).formFields = [("file", file)] ∧
    (uploadHandleResponse resp = Except.ok resp.body ↔ resp.ok = true) ∧
    (resp.ok = false → ∀ s : String,
      jsGetField resp.body "detail" = some (Json.str s) → s ≠ "" →
      uploadHandleResponse resp = Except.error s) ∧
    (resp.ok = false → jsGetField resp.body "detail" = none →
      uploadHandleResponse resp =
        Except.error ("Upload error: " ++ toString resp.status)) := by
  refine ⟨rfl, rfl, rfl, ?_, fun hko s hd hs => ?_, fun hko hd => ?_⟩
  · constructor
    · intro h
      unfold uploadHandleResponse at h
      by_cases hok : resp.ok = true
      · exact hok
      · rw [if_pos (by simpa using hok)] at h
        exact absurd h (by simp)
    · intro hok
      unfold uploadHandleResponse
      rw [if_neg (by rw [hok]; simp)]
  · unfold uploadHandleResponse
    rw [if_pos (by rw [hko]; simp), hd, jsOr_some,
      if_pos (by rw [jsTruthy_str]; exact decide_eq_true hs)]
    rfl
  · unfold uploadHandleResponse
    rw [if_pos (by rw [hko]; simp), hd, jsOr_none]
    rfl

/-- Witness for `uploadGeoJSON`: the built request targets the ingestion
endpoint with the file under field `file`, and a 400 response with a
`detail` message rejects with exactly that message. -/
theorem uploadGeoJSON_spec_witness :
    (buildUploadRequest "https://geospot-b.onrender.com"
        { name := "parks.geojson".data, size := 2048 }).url =
      "https://geospot-b.onrender.com/api/v1/upload" ∧
    uploadHandleResponse { ok := false, status := 400, body := Json.obj [("detail", Json.str "Invalid GeoJSON structure")] } = Except.error "Invalid GeoJSON structure" :=
  ⟨by
    have h := (uploadGeoJSON_spec "https://geospot-b.onrender.com"
      { name := "parks.geojson".data, size := 2048 }
      { ok := true, status := 200, body := Json.null }).1
    simpa using h,
   (uploadGeoJSON_spec "https://geospot-b.onrender.com"
      { name := "parks.geojson".data, size := 2048 }
      { ok := false, status := 400, body := Json.obj [("detail", Json.str "Invalid GeoJSON structure")] }).2.2.2.2.1 rfl "Invalid GeoJSON structure" rfl (by decide)⟩

/-! ### Characterizing `split('.').pop()` -/

/-- Splitting a separator-free list yields the singleton of the list;
of a list containing the separator, it has at least two segments. -/
theorem splitOnChar_shape (s : List Char) :
    (('.' ∉ s) ∧ splitOnChar '.' s = [s]) ∨
    (('.' ∈ s) ∧ ∃ h t, splitOnChar '.' s = h :: t ∧ t ≠ []) := by
  induction s with
  | nil => left; exact ⟨List.not_mem_nil '.', rfl⟩
  | cons x xs ih =>
    rcases ih with ⟨hc, hs⟩ | ⟨hc, h, t, hs, ht⟩
    · by_cases hx : x = '.'
      · right
        refine ⟨by rw [hx]; exact List.mem_cons_self '.' xs, [], [xs], ?_, by simp⟩
        simp only [splitOnChar, hs, if_pos hx]
      · left
        refine ⟨?_, ?_⟩
        · intro hm
          rcases List.mem_cons.mp hm with hm | hm
          · exact hx hm.symm
          · exact hc hm
        · simp only [splitOnChar, hs, if_neg hx]
    · right
      refine ⟨List.mem_cons_of_mem x hc, ?_⟩
      by_cases hx : x = '.'
      · exact ⟨[], h :: t, by simp only [splitOnChar, hs, if_pos hx], by simp⟩
      · exact ⟨x :: h, t, by simp only [splitOnChar, hs, if_neg hx], ht⟩

/-- On a non-empty list, `getLastD` ignores the default. -/
theorem getLastD_irrel {α : Type} (l : List α) (d d' : α) (h : l ≠ []) :
    l.getLastD d = l.getLastD d' := by
  cases l with
  | nil => exact absurd rfl h
  | cons b l' => rw [List.getLastD_cons, List.getLastD_cons]

/-- What `str.split('.').pop()` computes: the characters after the last dot (the
whole string when there is no dot). -/
theorem splitOnChar_getLastD (s : List Char) :
    (splitOnChar '.' s).getLastD [] = afterLastDot s := by
  induction s with
  | nil => rfl
  | cons x xs ih =>
    rcases splitOnChar_shape xs with ⟨hc, hs⟩ | ⟨hc, h, t, hs, ht⟩
    · by_cases hx : x = '.'
      · simp only [splitOnChar, hs, if_pos hx, afterLastDot, if_neg hc,
          List.getLastD_cons]
        rfl
      · simp only [splitOnChar, hs, if_neg hx, afterLastDot, if_neg hc,
          List.getLastD_cons]
        rfl
    · rw [hs] at ih
      rw [List.getLastD_cons] at ih
      by_cases hx : x = '.'
      · simp only [splitOnChar, hs, if_pos hx, afterLastDot, if_pos hc,
          List.getLastD_cons]
        exact ih
      · simp only [splitOnChar, hs, if_neg hx, afterLastDot, if_pos hc,
          List.getLastD_cons]
        rw [getLastD_irrel t (x :: h) h ht]
        exact ih

/-- The character built by `Char.ofNatAux` carries exactly the requested code. -/
theorem ofNatAux_toNat (n : Nat) (h : n.isValidChar) :
    (Char.ofNatAux n h).toNat = n := rfl

/-- No character other than `'.'` is mapped to `'.'` by `Char.toLower`. -/
theorem toLower_eq_dot (c : Char) : Char.toLower c = '.' ↔ c = '.' := by
  constructor
  · intro h
    unfold Char.toLower at h
    by_cases hn : c.toNat ≥ 65 ∧ c.toNat ≤ 90
    · exfalso
      rw [if_pos hn] at h
      have hv : Nat.isValidChar (c.toNat + 32) := Or.inl (by omega)
      have h2 := congrArg Char.toNat h
      have h3 : (Char.ofNat (c.toNat + 32)).toNat = c.toNat + 32 := by
        unfold Char.ofNat
        rw [dif_pos hv]
        exact ofNatAux_toNat _ hv
      rw [h3] at h2
      have h4 : ('.' : Char).toNat = 46 := rfl
      rw [h4] at h2
      omega
    · rw [if_neg hn] at h
      exact h
  · intro h
    rw [h]
    rfl

/-- Lowercasing preserves the presence of dots. -/
theorem mem_dot_jsToLower (s : List Char) :
    ('.' ∈ jsToLower s) ↔ ('.' ∈ s) := by
  unfold jsToLower
  rw [List.mem_map]
  constructor
  · rintro ⟨a, ha, hl⟩
    rwa [← (toLower_eq_dot a).mp hl]
  · intro h
    exact ⟨'.', h, rfl⟩

/-- Lowercasing commutes with taking the part after the last dot. -/
theorem jsToLower_afterLastDot (s : List Char) :
    jsToLower (afterLastDot s) = afterLastDot (jsToLower s) := by
  induction s with
  | nil => rfl
  | cons x xs ih =>
    show jsToLower (afterLastDot (x :: xs)) =
      afterLastDot (Char.toLower x :: jsToLower xs)
    by_cases hc : '.' ∈ xs
    · have hc' : '.' ∈ jsToLower xs := (mem_dot_jsToLower xs).mpr hc
      simp only [afterLastDot, if_pos hc, if_pos hc', ih]
    · have hc' : '.' ∉ jsToLower xs := fun hm => hc ((mem_dot_jsToLower xs).mp hm)
      by_cases hx : x = '.'
      · have hx' : Char.toLower x = '.' := (toLower_eq_dot x).mpr hx
        simp only [afterLastDot, if_neg hc, if_neg hc', if_pos hx, if_pos hx']
      · have hx' : Char.toLower x ≠ '.' := fun hh => hx ((toLower_eq_dot x).mp hh)
        simp only [afterLastDot, if_neg hc, if_neg hc', if_neg hx, if_neg hx']
        rfl

/-- The part after the last dot equals `e` (a non-empty, dot-free list)
exactly when `'.' :: e` is a suffix of the list, or the list is dot-free
and equals `e` outright. -/
theorem afterLastDot_eq_iff (l e : List Char) (he : e ≠ [])
    (hd : '.' ∉ e) :
    afterLastDot l = e ↔
      (('.' :: e) <:+ l ∨ (('.' ∉ l) ∧ l = e)) := by
  induction l with
  | nil =>
    apply iff_of_false
    · intro h
      exact he h.symm
    · rintro (h | ⟨-, h⟩)
      · exact List.cons_ne_nil '.' e (List.suffix_nil.mp h)
      · exact he h.symm
  | cons x xs ih =>
    by_cases hc : '.' ∈ xs
    · have h1 : afterLastDot (x :: xs) = afterLastDot xs := by
        simp only [afterLastDot, if_pos hc]
      rw [h1, ih]
      constructor
      · rintro (h | ⟨hn, -⟩)
        · exact Or.inl (h.trans (List.suffix_cons x xs))
        · exact absurd hc hn
      · rintro (h | ⟨hn, -⟩)
        · rcases List.suffix_cons_iff.mp h with h | h
          · exfalso
            have hxe : e = xs := (List.cons.injEq _ _ _ _ ▸ h).2
            exact hd (by rw [hxe]; exact hc)
          · exact Or.inl h
        · exact absurd (List.mem_cons_of_mem x hc) hn
    · by_cases hx : x = '.'
      · have h1 : afterLastDot (x :: xs) = xs := by
          simp only [afterLastDot, if_neg hc, if_pos hx]
        rw [h1]
        constructor
        · intro h
          subst h hx
          exact Or.inl (List.suffix_refl _)
        · rintro (h | ⟨hn, -⟩)
          · rcases List.suffix_cons_iff.mp h with h | h
            · exact ((List.cons.injEq _ _ _ _ ▸ h).2).symm
            · exact absurd (h.subset (List.mem_cons_self '.' e)) hc
          · exact absurd (by rw [hx]; exact List.mem_cons_self '.' xs) hn
      · have h1 : afterLastDot (x :: xs) = x :: xs := by
          simp only [afterLastDot, if_neg hc, if_neg hx]
        rw [h1]
        constructor
        · intro h
          refine Or.inr ⟨?_, h⟩
          intro hm
          rcases List.mem_cons.mp hm with hm | hm
          · exact hx hm.symm
          · exact hc hm
        · rintro (h | ⟨-, h⟩)
          · exfalso
            rcases List.suffix_cons_iff.mp h with h | h
            · exact hx ((List.cons.injEq _ _ _ _ ▸ h).1).symm
            · exact hc (h.subset (List.mem_cons_self '.' e))
          · exact h

/-- The code's extension test, characterized: the computed extension is
allowed exactly when the lowercased part after the last dot is `geojson`
or `json`. -/
theorem codeAccept_iff (name : List Char) :
    allowedExtensions.contains (computedExtension name) = true ↔
      (afterLastDot (jsToLower name) = "geojson".data ∨
       afterLastDot (jsToLower name) = "json".data) := by
  unfold computedExtension
  rw [splitOnChar_getLastD, jsToLower_afterLastDot]
  rw [show (allowedExtensions : List (List Char)) =
    ['.' :: "geojson".data, '.' :: "json".data] from rfl]
  simp [List.contains_cons, beq_iff_eq, List.cons.injEq]

/-- The amended acceptance predicate, characterized propositionally. -/
theorem specAccept_iff (name : List Char) :
    specNameAccepted name = true ↔
      ((".geojson".data <:+ jsToLower name ∨
        ".json".data <:+ jsToLower name) ∨
       (('.' ∉ jsToLower name) ∧
        (jsToLower name = "geojson".data ∨
         jsToLower name = "json".data))) := by
  unfold specNameAccepted endsInRecognizedExtension
  simp [allowedExtensions, List.isSuffixOf_iff_suffix, beq_iff_eq,
    mem_dot_jsToLower, Bool.and_eq_true, Bool.or_eq_true]

/-- The upload page's extension test coincides with the amended
acceptance predicate. -/
theorem nameCheck_eq_spec (name : List Char) :
    allowedExtensions.contains (computedExtension name) =
      specNameAccepted name := by
  rw [Bool.eq_iff_iff, codeAccept_iff, specAccept_iff]
  constructor
  · rintro (h | h)
    · rcases (afterLastDot_eq_iff _ _ (by decide) (by decide)).mp h with h' | h'
      · exact Or.inl (Or.inl h')
      · exact Or.inr ⟨h'.1, Or.inl h'.2⟩
    · rcases (afterLastDot_eq_iff _ _ (by decide) (by decide)).mp h with h' | h'
      · exact Or.inl (Or.inr h')
      · exact Or.inr ⟨h'.1, Or.inr h'.2⟩
  · rintro ((h | h) | ⟨hn, (h | h)⟩)
    · exact Or.inl ((afterLastDot_eq_iff _ _ (by decide) (by decide)).mpr
        (Or.inl h))
    · exact Or.inr ((afterLastDot_eq_iff _ _ (by decide) (by decide)).mpr
        (Or.inl h))
    · exact Or.inl ((afterLastDot_eq_iff _ _ (by decide) (by decide)).mpr
        (Or.inr ⟨hn, h⟩))
    · exact Or.inr ((afterLastDot_eq_iff _ _ (by decide) (by decide)).mpr
        (Or.inr ⟨hn, h⟩))

/-- Claim C2, counterexample: a file named `geojson` (no dot anywhere in
the name) does not end in a recognized extension, yet the handler accepts
it as the selected file — `split('.').pop()` of a dotless name returns the
whole name, so the computed extension becomes `.geojson`. -/
theorem nameCheck_counterexample :
    endsInRecognizedExtension "geojson".data = false ∧
    handleFileChange initialUploadState
        (some { name := "geojson".data, size := 4 }) =
      { initialUploadState with
          file := some { name := "geojson".data, size := 4 },
          error := none } :=
  ⟨rfl, rfl⟩

/-- Claim C2 (amended): a selection is rejected with the invalid-file-type
error exactly when the filename neither ends case-insensitively in
`.geojson` or `.json` nor is a dotless name lowercasing to `geojson` or
`json`; a rejected selection never becomes the selected file. -/
theorem nameCheck_amended (st : UploadState) (f : JsFile) :
    (handleFileChange st (some f) = { st with error := some invalidTypeMsg } ↔
      specNameAccepted f.name = false) ∧
    (specNameAccepted f.name = false →
      (handleFileChange st (some f)).file = st.file) := by
  rw [handleFileChange_some]
  have hcs := nameCheck_eq_spec f.name
  by_cases ha : specNameAccepted f.name = true
  · have hco : allowedExtensions.contains (computedExtension f.name) = true := by
      rw [hcs, ha]
    rw [if_neg (not_not_intro hco)]
    constructor
    · apply iff_of_false
      · by_cases hs : f.size > maxSize
        · rw [if_pos hs]
          intro h
          have herr := congrArg UploadState.error h
          exact absurd (Option.some.inj herr) (by decide)
        · rw [if_neg hs]
          intro h
          have herr := congrArg UploadState.error h
          simp at herr
      · intro hh
        rw [hh] at ha
        exact Bool.false_ne_true ha
    · intro hh
      rw [hh] at ha
      exact (Bool.false_ne_true ha).elim
  · have haf : specNameAccepted f.name = false := by
      revert ha
      cases specNameAccepted f.name <;> simp
    have hco : allowedExtensions.contains (computedExtension f.name) = false := by
      rw [hcs, haf]
    rw [if_pos (by rw [hco]; exact Bool.false_ne_true)]
    exact ⟨iff_of_true rfl haf, fun _ => rfl⟩

/-- Witness for the amended name check: a `.txt` selection is rejected
with the invalid-file-type error and the selected file is untouched. -/
theorem nameCheck_amended_witness :
    handleFileChange initialUploadState
        (some { name := "readme.txt".data, size := 9 }) =
      { initialUploadState with error := some invalidTypeMsg } ∧
    (handleFileChange initialUploadState
        (some { name := "readme.txt".data, size := 9 })).file =
      initialUploadState.file :=
  ⟨((nameCheck_amended initialUploadState
      { name := "readme.txt".data, size := 9 }).1).mpr (by rfl),
   (nameCheck_amended initialUploadState
      { name := "readme.txt".data, size := 9 }).2 (by rfl)⟩

/-! ### Atomicity of the ingestion pipeline -/

/-- Every exit of the persist step either leaves the store untouched or
reports success. -/
theorem persistTx_shape (st : Store) (nm ds : String) (fsz now : Nat)
    (fs : List GeoFeature) (sf : Bool) :
    (persistTx st nm ds fsz now fs sf).1 = st ∨
    ∃ s, (persistTx st nm ds fsz now fs sf).2 = Except.ok s := by
  unfold persistTx
  split
  · exact Or.inl rfl
  · exact Or.inr ⟨_, rfl⟩

/-- Every exit of steps 5–6 either leaves the store untouched or reports
success. -/
theorem ingestValidated_shape (st : Store) (inp : UploadInput)
    (doc : FeatureCollectionDoc) (o : Option Nat) :
    (ingestValidated st inp doc o).1 = st ∨
    ∃ s, (ingestValidated st inp doc o).2 = Except.ok s := by
  cases o with
  | some i => exact Or.inl rfl
  | none =>
    simp only [ingestValidated]
    split
    · exact Or.inl rfl
    · exact persistTx_shape st _ _ _ _ _ _

/-- Every exit of the whole pipeline either leaves the store untouched or
reports success. -/
theorem ingest_shape (maxBytes : Nat) (st : Store) (inp : UploadInput) :
    (ingest maxBytes st inp).1 = st ∨
    ∃ s, (ingest maxBytes st inp).2 = Except.ok s := by
  unfold ingest
  split
  · exact Or.inl rfl
  · split
    · exact Or.inl rfl
    · cases hp : inp.parsed with
      | none => exact Or.inl rfl
      | some doc => exact ingestValidated_shape st inp doc _

/-- Claim C1: all-or-nothing ingestion — whenever `ingest` fails with any
error, at any step (name, size, parse, validation, uniqueness, or a
persistence fault during the transactional persist), the resulting store
is exactly the initial store: no Dataset row and no Feature rows
attributable to the attempt exist, so a failed ingestion is
indistinguishable from one that never started on the store's read side. -/
theorem ingest_allOrNothing (maxBytes : Nat) (st : Store)
    (inp : UploadInput) (e : IngestError)
    (h : (ingest maxBytes st inp).2 = Except.error e) :
    (ingest maxBytes st inp).1 = st := by
  rcases ingest_shape maxBytes st inp with hs | ⟨s, hs⟩
  · exact hs
  · rw [h] at hs
    exact Except.noConfusion hs

/-- Witness for atomicity: a valid upload struck by a persistence-layer
fault rolls back to the empty store. -/
theorem ingest_allOrNothing_witness :
    (ingest 10485760 emptyStore { fileName := "parks.geojson", fileSize := 120, parsed := some { features := [{ geometry := Geometry.point [1, 2], properties := [("name", Json.str "a")] }] }, now := 5, storeFails := true }).1 = emptyStore :=
  ingest_allOrNothing 10485760 emptyStore { fileName := "parks.geojson", fileSize := 120, parsed := some { features := [{ geometry := Geometry.point [1, 2], properties := [("name", Json.str "a")] }] }, now := 5, storeFails := true } IngestError.storeFailure rfl

/-! ### Round-trip: export after ingest -/

/-- Updating the dataset rows' count and bounds does not change which ids
occur. -/
theorem any_id_map_update (l : List DatasetRow) (did n : Nat)
    (b : Option Geometry) :
    (l.map (fun d =>
        if d.id = did then { d with featureCount := n, bounds := b }
        else d)).any (fun d => d.id == did) =
      l.any (fun d => d.id == did) := by
  induction l with
  | nil => rfl
  | cons d l ih =>
    simp only [List.map_cons, List.any_cons, ih]
    by_cases h : d.id = did
    · rw [if_pos h]
    · rw [if_neg h]

/-- The feature table after a successful persist: the old rows followed by
one row per input feature, in input order, geometry and properties copied
verbatim. -/
theorem persistedStore_features (st : Store) (nm ds : String)
    (fsz now : Nat) (fs : List GeoFeature) :
    (persistedStore st nm ds fsz now fs).features =
      st.features ++ fs.enum.map (fun p =>
        FeatureRow.mk (st.nextFeatureId + p.1) st.nextDatasetId
          p.2.geometry p.2.properties) := rfl

/-- Export of the dataset created by a successful persist reproduces the
input features' geometries and properties, in input order. -/
theorem persistedStore_export (st : Store) (nm ds : String)
    (fsz now : Nat) (fs : List GeoFeature) (hwf : StoreWF st = true) :
    ∃ out, exportGeoJSON (persistedStore st nm ds fsz now fs)
        st.nextDatasetId = some out ∧
      out.features.map (fun f => (f.geometry, f.properties)) =
        fs.map (fun f => (f.geometry, f.properties)) := by
  have hdat : (persistedStore st nm ds fsz now fs).datasets =
      (st.datasets ++
        [DatasetRow.mk st.nextDatasetId nm ds 0 none fsz now]).map (fun d =>
          if d.id = st.nextDatasetId then
            { d with
                featureCount :=
                  (bulkInsertFeatures (createDataset st nm ds fsz now).1
                    st.nextDatasetId fs).2,
                bounds :=
                  computeBounds
                    (bulkInsertFeatures (createDataset st nm ds fsz now).1
                      st.nextDatasetId fs).1 st.nextDatasetId }
          else d) := rfl
  have hany : (persistedStore st nm ds fsz now fs).datasets.any
      (fun d => d.id == st.nextDatasetId) = true := by
    rw [hdat, any_id_map_update, List.any_append]
    simp
  unfold exportGeoJSON
  rw [if_pos hany]
  refine ⟨_, rfl, ?_⟩
  show (((persistedStore st nm ds fsz now fs).features.filter
      (fun f => f.datasetId == st.nextDatasetId)).map
        (fun r => OutFeature.mk r.id r.geometry r.properties)).map
      (fun f => (f.geometry, f.properties)) =
    fs.map (fun f => (f.geometry, f.properties))
  rw [persistedStore_features, List.filter_append]
  have hold : st.features.filter
      (fun f => f.datasetId == st.nextDatasetId) = [] := by
    rw [List.filter_eq_nil_iff]
    intro a ha
    have hwf' := hwf
    unfold StoreWF at hwf'
    simp only [Bool.and_eq_true] at hwf'
    have hlt := of_decide_eq_true (List.all_eq_true.mp hwf'.2 a ha)
    simp only [beq_iff_eq]
    omega
  have hnew : (fs.enum.map (fun p =>
      FeatureRow.mk (st.nextFeatureId + p.1) st.nextDatasetId
        p.2.geometry p.2.properties)).filter
      (fun f => f.datasetId == st.nextDatasetId) =
      fs.enum.map (fun p =>
        FeatureRow.mk (st.nextFeatureId + p.1) st.nextDatasetId
          p.2.geometry p.2.properties) := by
    rw [List.filter_eq_self]
    intro r hr
    rcases List.mem_map.mp hr with ⟨pr, hpr, hr'⟩
    rw [← hr']
    simp
  rw [hold, hnew, List.nil_append, List.map_map, List.map_map]
  conv_rhs => rw [← List.enum_map_snd fs, List.map_map]
  rfl

/-- Claim C7: round-trip — for every document successfully ingested into a
well-formed store, exporting the resulting dataset id reproduces exactly
the document's geometries and properties, in input order, values
unchanged. -/
theorem ingest_export_roundtrip (maxBytes : Nat) (st : Store)
    (inp : UploadInput) (doc : FeatureCollectionDoc) (sum : IngestSummary)
    (hwf : StoreWF st = true) (hdoc : inp.parsed = some doc)
    (hok : (ingest maxBytes st inp).2 = Except.ok sum) :
    ∃ out, exportGeoJSON (ingest maxBytes st inp).1 sum.datasetId =
        some out ∧
      out.features.map (fun f => (f.geometry, f.properties)) =
        doc.features.map (fun f => (f.geometry, f.properties)) := by
  unfold ingest at hok ⊢
  by_cases h1 : recognizedName inp.fileName = true
  case neg =>
    rw [if_pos h1] at hok
    simp at hok
  case pos =>
    rw [if_neg (not_not_intro h1)] at hok ⊢
    by_cases h2 : inp.fileSize > maxBytes
    case pos =>
      rw [if_pos h2] at hok
      simp at hok
    case neg =>
      rw [if_neg h2] at hok ⊢
      rw [hdoc] at hok ⊢
      rw [show ingestParsed st inp (some doc) =
        ingestValidated st inp doc (firstInvalidIndex doc.features)
        from rfl] at hok ⊢
      cases hv : firstInvalidIndex doc.features with
      | some i =>
        rw [hv] at hok
        simp [ingestValidated] at hok
      | none =>
        rw [hv] at hok
        rw [show ingestValidated st inp doc none =
          (if st.datasets.any
              (fun d => d.name == datasetNameOf inp.fileName) then
            (st, Except.error IngestError.duplicateName)
          else
            persistTx st (datasetNameOf inp.fileName)
              (defaultDescription doc.features.length)
              inp.fileSize inp.now doc.features inp.storeFails)
          from rfl] at hok ⊢
        by_cases h3 : st.datasets.any
            (fun d => d.name == datasetNameOf inp.fileName) = true
        case pos =>
          rw [if_pos h3] at hok
          simp at hok
        case neg =>
          rw [if_neg h3] at hok ⊢
          cases hsf : inp.storeFails with
          | true =>
            rw [hsf] at hok
            unfold persistTx at hok
            rw [if_pos rfl] at hok
            simp at hok
          | false =>
            rw [hsf] at hok
            unfold persistTx at hok ⊢
            rw [if_neg Bool.false_ne_true] at hok ⊢
            have hsum : sum = persistSummary st (datasetNameOf inp.fileName)
                inp.fileSize inp.now doc.features :=
              (Except.ok.inj hok).symm
            rw [hsum]
            exact persistedStore_export st (datasetNameOf inp.fileName)
              (defaultDescription doc.features.length)
              inp.fileSize inp.now doc.features hwf

/-- Witness for the round-trip: ingesting a one-feature document into the
empty store and exporting the new dataset reproduces the feature. -/
theorem ingest_export_roundtrip_witness :
    ∃ out, exportGeoJSON (ingest 10485760 emptyStore { fileName := "parks.geojson", fileSize := 120, parsed := some { features := [{ geometry := Geometry.point [1, 2], properties := [("name", Json.str "a")] }] }, now := 5, storeFails := false }).1 ({ datasetId := 1, name := "parks.geojson", featureCount := 1, fileSizeBytes := 120, uploadedAt := 5 } : IngestSummary).datasetId = some out ∧
      out.features.map (fun f => (f.geometry, f.properties)) =
        ({ features := [{ geometry := Geometry.point [1, 2], properties := [("name", Json.str "a")] }] } : FeatureCollectionDoc).features.map (fun f => (f.geometry, f.properties)) :=
  ingest_export_roundtrip 10485760 emptyStore { fileName := "parks.geojson", fileSize := 120, parsed := some { features := [{ geometry := Geometry.point [1, 2], properties := [("name", Json.str "a")] }] }, now := 5, storeFails := false } { features := [{ geometry := Geometry.point [1, 2], properties := [("name", Json.str "a")] }] } { datasetId := 1, name := "parks.geojson", featureCount := 1, fileSizeBytes := 120, uploadedAt := 5 } (by decide) rfl rfl

end GeoSpot
